import Mathlib

/-!
Verification of the plugin-pingpal-email mailbox-watching pipeline.

The definitions below are a shallow embedding of the TypeScript source:
* `handler` embeds `analyzeEmailAction.handler` (src/actions/analyzeEmailAction.ts),
* `resolveMessageId` embeds the `finalMessageId` resolution in `monitorEmails` (src/index.ts),
* `resolveBody` embeds the body-resolution chain in `monitorEmails` (src/index.ts),
* `existsHandlerTrace` / `processUids` embed the `exists` wake-up handler batch loop
  (src/index.ts), including its lock acquire / release and try/catch structure.

External collaborators (the LLM, the memory store, the notifier action, the IMAP
server) are modelled as explicit environment values describing their outcome.
-/

namespace PingPal

/-- `EmailDetails` from src/types.ts (the `from` and `to` fields are named
`fromAddr` and `toAddrs` because `from` and `to` are Lean keywords). -/
structure EmailDetails where
  messageId : String
  fromAddr : String
  toAddrs : List String
  subject : String
  bodyText : String
  deriving DecidableEq, Repr

/-- A dynamically-typed JavaScript value, as far as the handler's runtime type
validation distinguishes them. -/
inductive JsVal where
  | bool (b : Bool)
  | str (s : String)
  | num (n : Int)
  | null
  | undef
  deriving DecidableEq, Repr

/-- The raw object shape the LLM call can return (fields of arbitrary dynamic type). -/
structure RawLlmResponse where
  important : JsVal
  summary : JsVal
  reason_for_importance : JsVal
  deriving DecidableEq, Repr

/-- Outcome of the `runtime.useModel` call in `analyzeEmailAction.handler`:
it can throw, return a falsy value, or return an object. -/
inductive LlmOutcome where
  | throws
  | nullResp
  | resp (r : RawLlmResponse)
  deriving DecidableEq, Repr

/-- The validated analysis result (`PingpalEmailMetadata["analysisResult"]`). -/
structure AnalysisResult where
  important : Bool
  summary : String
  reason_for_importance : String
  error : Option String := none
  deriving DecidableEq, Repr

/-- One row of the `pingpal_email_processed` table: the metadata of the memory
created by `analyzeEmailAction.handler` (`PingpalEmailMetadata`). -/
structure ProcessedRecord where
  originalEmailMessageId : String
  senderEmailAddress : String
  notifiedViaTelegram : Bool
  analysisResult : AnalysisResult
  deriving DecidableEq, Repr

/-- Environment of one `ANALYZE_EMAIL` handler invocation: outcomes of the
external collaborators it calls. -/
structure Env where
  llm : LlmOutcome
  createMemorySucceeds : Bool
  notifierPresent : Bool
  notifierThrows : Bool
  deriving DecidableEq, Repr

/-- A `SEND_EMAIL_TELEGRAM_NOTIFICATION` invocation: the handler is called with
the email details and the analysis result. -/
structure Notification where
  email : EmailDetails
  analysisResult : AnalysisResult
  deriving DecidableEq, Repr

/-- Externally visible calls made by one handler run, in order. -/
inductive HEv where
  | evGetMemories
  | evUseModel
  | evCreateMemory
  | evNotify
  deriving DecidableEq, Repr

/-- Result of one handler run: the persisted store afterwards, the notifier
invocations, the call trace, and the handler's return value. -/
structure HandlerResult where
  store : List ProcessedRecord
  notifications : List Notification
  events : List HEv
  retVal : Bool
  deriving DecidableEq, Repr

/-- The duplicate check: `processedMemories.some(m => m.metadata?.originalEmailMessageId
=== emailDetails.messageId)`. -/
def hasRecord (store : List ProcessedRecord) (id : String) : Bool :=
  store.any (fun r => r.originalEmailMessageId == id)

/-- The shape validation of the parsed LLM response
(`typeof parsedResponse.important !== "boolean" || ...`). -/
def validResponse (r : RawLlmResponse) : Option AnalysisResult :=
  match r.important, r.summary, r.reason_for_importance with
  | JsVal.bool b, JsVal.str s, JsVal.str rs =>
    some { important := b, summary := s, reason_for_importance := rs, error := none }
  | _, _, _ => none

/-- The LLM-interaction try/catch block: yields `(analysisResult, llmErrorOccurred)`. -/
def llmInteraction : LlmOutcome → Option AnalysisResult × Bool
  | LlmOutcome.throws => (none, true)
  | LlmOutcome.nullResp => (none, true)
  | LlmOutcome.resp r =>
    match validResponse r with
    | some a => (some a, false)
    | none => (none, true)

/-- The fallback `analysisDataForLogging` used when the LLM failed. -/
def llmFailureData : AnalysisResult :=
  { important := false
    summary := ""
    reason_for_importance := "LLM processing failed"
    error := some "LLM_PROCESSING_FAILED" }

/-- Shallow embedding of `analyzeEmailAction.handler`
(src/actions/analyzeEmailAction.ts). The store is passed in and returned
explicitly; environment outcomes stand for the external calls. -/
def handler (store : List ProcessedRecord) (email : EmailDetails) (env : Env) :
    HandlerResult :=
  -- `if (!emailDetails || !emailDetails.messageId) return false`
  if email.messageId = "" then
    { store := store, notifications := [], events := [], retVal := false }
  -- `getMemories` + `processedMemories.some(...)`; duplicates exit early with `true`
  else if hasRecord store email.messageId then
    { store := store, notifications := [], events := [HEv.evGetMemories], retVal := true }
  else
    let ar := llmInteraction env.llm
    let analysisResult := ar.1
    let llmErrorOccurred := ar.2
    -- `analysisResult && !llmErrorOccurred ? analysisResult : {important:false, ...}`
    let analysisDataForLogging :=
      match analysisResult, llmErrorOccurred with
      | some a, false => a
      | _, _ => llmFailureData
    let memoryToCreate : ProcessedRecord :=
      { originalEmailMessageId := email.messageId
        senderEmailAddress := email.fromAddr
        -- `notifiedViaTelegram: analysisResult?.important || false`
        notifiedViaTelegram := match analysisResult with
          | some a => a.important
          | none => false
        analysisResult := analysisDataForLogging }
    -- `createMemory` in a try/catch: on failure the error is logged and the run continues
    let newStore := if env.createMemorySucceeds then store ++ [memoryToCreate] else store
    -- `if (!llmErrorOccurred && analysisResult && analysisResult.important)`
    match llmErrorOccurred, analysisResult with
    | false, some a =>
      if a.important && env.notifierPresent then
        -- the notifier handler call is inside try/catch: a throw is logged only
        { store := newStore
          notifications := [{ email := email, analysisResult := a }]
          events := [HEv.evGetMemories, HEv.evUseModel, HEv.evCreateMemory, HEv.evNotify]
          retVal := true }
      else
        { store := newStore
          notifications := []
          events := [HEv.evGetMemories, HEv.evUseModel, HEv.evCreateMemory]
          retVal := true }
    | _, _ =>
      { store := newStore
        notifications := []
        events := [HEv.evGetMemories, HEv.evUseModel, HEv.evCreateMemory]
        retVal := false }

/-- A sequence of deliveries to the pipeline: thread the store through
successive handler invocations, accumulating notifier invocations. -/
def runTrace : List ProcessedRecord → List (EmailDetails × Env) →
    List ProcessedRecord × List Notification
  | store, [] => (store, [])
  | store, (e, env) :: rest =>
    let r := handler store e env
    let t := runTrace r.store rest
    (t.1, r.notifications ++ t.2)

/-- Number of notifier invocations whose email has resolved id `X`. -/
def countNotifs (X : String) (ns : List Notification) : Nat :=
  (ns.filter (fun n => n.email.messageId == X)).length

/-- The classification-failure predicate: adapter throw, falsy response, or
shape-validation mismatch are all failures. -/
def classificationFailed : LlmOutcome → Bool
  | LlmOutcome.throws => true
  | LlmOutcome.nullResp => true
  | LlmOutcome.resp r => (validResponse r).isNone

/-- An `Env` whose LLM call succeeds with a well-typed verdict; the remaining
fields describe the store and the notifier action. -/
def mkSuccessEnv (b : Bool) (s rs : String) (cm nt : Bool) : Env :=
  { llm := LlmOutcome.resp
      { important := JsVal.bool b, summary := JsVal.str s, reason_for_importance := JsVal.str rs }
    createMemorySucceeds := cm
    notifierPresent := true
    notifierThrows := nt }

lemma hasRecord_append (s : List ProcessedRecord) (r : ProcessedRecord) (X : String) :
    hasRecord (s ++ [r]) X = (hasRecord s X || (r.originalEmailMessageId == X)) := by
  simp [hasRecord]

lemma countNotifs_append (X : String) (a b : List Notification) :
    countNotifs X (a ++ b) = countNotifs X a + countNotifs X b := by
  simp [countNotifs]

lemma handler_notifs_nil_of_dup (s : List ProcessedRecord) (e : EmailDetails) (env : Env)
    (h : hasRecord s e.messageId = true) : (handler s e env).notifications = [] := by
  unfold handler
  by_cases hid : e.messageId = "" <;> simp [hid, h]

lemma handler_store_of_dup (s : List ProcessedRecord) (e : EmailDetails) (env : Env)
    (h : hasRecord s e.messageId = true) : (handler s e env).store = s := by
  unfold handler
  by_cases hid : e.messageId = "" <;> simp [hid, h]

lemma handler_store_mono (s : List ProcessedRecord) (e : EmailDetails) (env : Env)
    (X : String) (h : hasRecord s X = true) : hasRecord (handler s e env).store X = true := by
  unfold handler
  by_cases hid : e.messageId = ""
  · simpa [hid] using h
  by_cases hdup : hasRecord s e.messageId = true
  · simpa [hid, hdup] using h
  · simp only [hid, hdup, if_false, if_neg, Bool.false_eq_true]
    by_cases hcm : env.createMemorySucceeds = true <;>
      split <;> (try split) <;> simp [hcm, hasRecord_append, h]

lemma handler_store_other (s : List ProcessedRecord) (e : EmailDetails) (env : Env)
    (X : String) (hne : e.messageId ≠ X) :
    hasRecord (handler s e env).store X = hasRecord s X := by
  unfold handler
  by_cases hid : e.messageId = ""
  · simp [hid]
  by_cases hdup : hasRecord s e.messageId = true
  · simp [hid, hdup]
  · simp only [hid, hdup, if_false, if_neg, Bool.false_eq_true]
    by_cases hcm : env.createMemorySucceeds = true <;>
      split <;> (try split) <;> simp [hcm, hasRecord_append, hne]

lemma handler_store_persist (s : List ProcessedRecord) (e : EmailDetails) (env : Env)
    (hid : e.messageId ≠ "") (hdup : hasRecord s e.messageId = false)
    (hcm : env.createMemorySucceeds = true) :
    hasRecord (handler s e env).store e.messageId = true := by
  unfold handler
  simp only [hid, hdup, if_false, if_neg, Bool.false_eq_true]
  split <;> (try split) <;> simp [hcm, hasRecord_append]

lemma handler_countNotifs_le_one (s : List ProcessedRecord) (e : EmailDetails) (env : Env)
    (X : String) : countNotifs X (handler s e env).notifications ≤ 1 := by
  unfold handler
  by_cases hid : e.messageId = ""
  · simp [hid, countNotifs]
  by_cases hdup : hasRecord s e.messageId = true
  · simp [hid, hdup, countNotifs]
  · simp only [hid, hdup, if_false, if_neg, Bool.false_eq_true]
    split <;> (try split) <;>
      · simp only [countNotifs]
        exact le_trans (List.length_filter_le _ _) (by simp)

lemma handler_countNotifs_ne (s : List ProcessedRecord) (e : EmailDetails) (env : Env)
    (X : String) (hne : e.messageId ≠ X) :
    countNotifs X (handler s e env).notifications = 0 := by
  unfold handler
  by_cases hid : e.messageId = ""
  · simp [hid, countNotifs]
  by_cases hdup : hasRecord s e.messageId = true
  · simp [hid, hdup, countNotifs]
  · simp only [hid, hdup, if_false, if_neg, Bool.false_eq_true]
    split <;> (try split) <;> simp [countNotifs, hne]

lemma runTrace_countNotifs_zero (trace : List (EmailDetails × Env))
    (store : List ProcessedRecord) (X : String) (h : hasRecord store X = true) :
    countNotifs X (runTrace store trace).2 = 0 := by
  induction trace generalizing store with
  | nil => simp [runTrace, countNotifs]
  | cons p rest ih =>
    obtain ⟨e, env⟩ := p
    simp only [runTrace]
    rw [countNotifs_append]
    have h1 : countNotifs X (handler store e env).notifications = 0 := by
      by_cases hx : e.messageId = X
      · rw [handler_notifs_nil_of_dup store e env (by rw [hx]; exact h)]
        simp [countNotifs]
      · exact handler_countNotifs_ne store e env X hx
    rw [h1, ih _ (handler_store_mono store e env X h)]

lemma runTrace_countNotifs_le_one (trace : List (EmailDetails × Env))
    (store : List ProcessedRecord) (X : String)
    (hcm : ∀ p ∈ trace, p.2.createMemorySucceeds = true)
    (h : hasRecord store X = false) :
    countNotifs X (runTrace store trace).2 ≤ 1 := by
  induction trace generalizing store with
  | nil => simp [runTrace, countNotifs]
  | cons p rest ih =>
    obtain ⟨e, env⟩ := p
    simp only [runTrace]
    rw [countNotifs_append]
    by_cases hx : e.messageId = X
    · subst hx
      by_cases hid : e.messageId = ""
      · have hnil : (handler store e env).notifications = [] := by
          unfold handler; simp [hid]
        have hst : (handler store e env).store = store := by
          unfold handler; simp [hid]
        rw [hnil, hst]
        simpa [countNotifs] using ih _ (fun q hq => hcm q (List.mem_cons_of_mem _ hq)) h
      · have hcm1 : env.createMemorySucceeds = true := hcm (e, env) (List.mem_cons_self _ _)
        have hrest : countNotifs e.messageId (runTrace (handler store e env).store rest).2 = 0 :=
          runTrace_countNotifs_zero rest _ e.messageId
            (handler_store_persist store e env hid h hcm1)
        rw [hrest]
        simpa using handler_countNotifs_le_one store e env e.messageId
    · rw [handler_countNotifs_ne store e env X hx]
      have hst := handler_store_other store e env X hx
      simpa using ih _ (fun q hq => hcm q (List.mem_cons_of_mem _ hq)) (hst.trans h)

/-- A concrete email fixture used by witnesses and counterexamples. -/
def sampleEmail : EmailDetails :=
  { messageId := "<abc@mail>"
    fromAddr := "sender@example.com"
    toAddrs := ["user@example.com"]
    subject := "Meeting moved"
    bodyText := "Meeting is now at 3pm" }

/-- An environment where classification succeeds with `important = true` but
every `createMemory` call throws, so no ProcessedRecord is ever persisted. -/
def persistFailEnv : Env := mkSuccessEnv true "Meeting time changed to 3pm" "schedule change" false false

/-- An environment where classification succeeds with `important = true` and
persistence succeeds. -/
def persistOkEnv : Env := mkSuccessEnv true "Meeting time changed to 3pm" "schedule change" true false

/-- A ProcessedRecord already present for `sampleEmail`'s id. -/
def sampleRecord : ProcessedRecord :=
  { originalEmailMessageId := "<abc@mail>"
    senderEmailAddress := "sender@example.com"
    notifiedViaTelegram := true
    analysisResult :=
      { important := true, summary := "Meeting time changed to 3pm"
        reason_for_importance := "schedule change", error := none } }

/-- C1 counterexample: when `createMemory` throws on both deliveries of the same
message (the catch block logs and continues), the notifier fires twice for the
same resolved messageId, so the unconditional at-most-one bound fails. -/
theorem atMostOneNotification_cex :
    ¬ countNotifs "<abc@mail>"
        (runTrace [] [(sampleEmail, persistFailEnv), (sampleEmail, persistFailEnv)]).2 ≤ 1 := by
  decide

/-- C1 (amended): a message whose messageId already has a ProcessedRecord never
produces a notification; and provided every `createMemory` call in the trace
succeeds, at most one notifier invocation occurs per resolved messageId across
the lifetime of the store. -/
theorem atMostOneNotificationPerId (store : List ProcessedRecord)
    (trace : List (EmailDetails × Env)) (X : String) :
    (hasRecord store X = true → countNotifs X (runTrace store trace).2 = 0) ∧
    ((∀ p ∈ trace, p.2.createMemorySucceeds = true) →
      countNotifs X (runTrace store trace).2 ≤ 1) := by
  constructor
  · intro h
    exact runTrace_countNotifs_zero trace store X h
  · intro hcm
    by_cases h : hasRecord store X = true
    · rw [runTrace_countNotifs_zero trace store X h]
      exact Nat.zero_le 1
    · exact runTrace_countNotifs_le_one trace store X hcm (by simpa using h)

/-- C1 witness: the amended theorem applied to concrete traces. -/
theorem atMostOneNotificationPerId_witness :
    (hasRecord [sampleRecord] "<abc@mail>" = true ∧
      countNotifs "<abc@mail>" (runTrace [sampleRecord] [(sampleEmail, persistOkEnv)]).2 = 0) ∧
    ((∀ p ∈ [(sampleEmail, persistOkEnv), (sampleEmail, persistOkEnv)],
        p.2.createMemorySucceeds = true) ∧
      countNotifs "<abc@mail>"
        (runTrace [] [(sampleEmail, persistOkEnv), (sampleEmail, persistOkEnv)]).2 ≤ 1) :=
  ⟨⟨by decide,
    (atMostOneNotificationPerId [sampleRecord] [(sampleEmail, persistOkEnv)] "<abc@mail>").1
      (by decide)⟩,
   ⟨by decide,
    (atMostOneNotificationPerId [] [(sampleEmail, persistOkEnv), (sampleEmail, persistOkEnv)]
      "<abc@mail>").2 (by decide)⟩⟩

/-- C5: when classification fails (throw, empty response, or shape mismatch —
all uniform) for a non-duplicate message, exactly one ProcessedRecord is
persisted, carrying `important = false`, the fixed error marker as reason, a
false notified flag, and the notifier is never invoked. -/
theorem classificationFailureVerdict (store : List ProcessedRecord) (email : EmailDetails)
    (env : Env) (hid : email.messageId ≠ "")
    (hdup : hasRecord store email.messageId = false)
    (hcm : env.createMemorySucceeds = true)
    (hfail : classificationFailed env.llm = true) :
    (handler store email env).store =
      store ++ [{ originalEmailMessageId := email.messageId
                  senderEmailAddress := email.fromAddr
                  notifiedViaTelegram := false
                  analysisResult := llmFailureData }] ∧
    (handler store email env).notifications = [] ∧
    HEv.evNotify ∉ (handler store email env).events ∧
    llmFailureData.important = false ∧
    llmFailureData.reason_for_importance = "LLM processing failed" ∧
    llmFailureData.error = some "LLM_PROCESSING_FAILED" := by
  have hfi : llmInteraction env.llm = (none, true) := by
    cases henv : env.llm with
    | throws => rfl
    | nullResp => rfl
    | resp r =>
      rw [henv] at hfail
      simp only [classificationFailed, Option.isNone_iff_eq_none] at hfail
      simp [llmInteraction, hfail]
  unfold handler
  simp [hid, hdup, hcm, hfi, llmFailureData]

/-- An environment whose LLM call throws and whose store works. -/
def throwEnv : Env :=
  { llm := LlmOutcome.throws
    createMemorySucceeds := true
    notifierPresent := true
    notifierThrows := false }

/-- C5 witness. -/
theorem classificationFailureVerdict_witness :
    (sampleEmail.messageId ≠ "" ∧ hasRecord [] sampleEmail.messageId = false ∧
      classificationFailed throwEnv.llm = true) ∧
    (handler [] sampleEmail throwEnv).store =
      [{ originalEmailMessageId := sampleEmail.messageId
         senderEmailAddress := sampleEmail.fromAddr
         notifiedViaTelegram := false
         analysisResult := llmFailureData }] ∧
    (handler [] sampleEmail throwEnv).notifications = [] :=
  have h := classificationFailureVerdict [] sampleEmail throwEnv
    (by decide) (by decide) rfl rfl
  ⟨⟨by decide, by decide, rfl⟩, by simpa using h.1, h.2.1⟩

/-- C7: a delivery whose resolved messageId already has a ProcessedRecord is a
no-op: no classifier call, no createMemory call, no notifier call, and the
store is unchanged. -/
theorem duplicateDeliveryNoOp (store : List ProcessedRecord) (email : EmailDetails)
    (env : Env) (hdup : hasRecord store email.messageId = true) :
    (handler store email env).store = store ∧
    (handler store email env).notifications = [] ∧
    HEv.evUseModel ∉ (handler store email env).events ∧
    HEv.evCreateMemory ∉ (handler store email env).events ∧
    HEv.evNotify ∉ (handler store email env).events := by
  unfold handler
  by_cases hid : email.messageId = "" <;> simp [hid, hdup]

/-- C7 witness: a second delivery of `sampleEmail` after its record exists. -/
theorem duplicateDeliveryNoOp_witness :
    hasRecord [sampleRecord] sampleEmail.messageId = true ∧
    (handler [sampleRecord] sampleEmail persistOkEnv).store = [sampleRecord] ∧
    (handler [sampleRecord] sampleEmail persistOkEnv).notifications = [] ∧
    HEv.evUseModel ∉ (handler [sampleRecord] sampleEmail persistOkEnv).events :=
  have h := duplicateDeliveryNoOp [sampleRecord] sampleEmail persistOkEnv (by decide)
  ⟨by decide, h.1, h.2.1, h.2.2.1⟩

/-- C9: for a non-duplicate message with a successful classification, the
persisted `notifiedViaTelegram` flag equals the classifier's `important`
verdict; the createMemory call precedes the notifier call; and a notifier
throw leaves the persisted store untouched (the flag stays `true` even when
the Telegram notification attempt fails). -/
theorem notifiedFlagMatchesVerdict (store : List ProcessedRecord) (email : EmailDetails)
    (b : Bool) (s rs : String) (cm nt : Bool)
    (hid : email.messageId ≠ "") (hdup : hasRecord store email.messageId = false) :
    (cm = true → (handler store email (mkSuccessEnv b s rs cm nt)).store =
      store ++ [{ originalEmailMessageId := email.messageId
                  senderEmailAddress := email.fromAddr
                  notifiedViaTelegram := b
                  analysisResult :=
                    { important := b, summary := s
                      reason_for_importance := rs, error := none } }]) ∧
    (cm = false → (handler store email (mkSuccessEnv b s rs cm nt)).store = store) ∧
    (handler store email (mkSuccessEnv b s rs cm true)).store =
      (handler store email (mkSuccessEnv b s rs cm false)).store ∧
    (b = true →
      ∃ i j, i < j ∧
        (handler store email (mkSuccessEnv b s rs cm nt)).events.get? i =
          some HEv.evCreateMemory ∧
        (handler store email (mkSuccessEnv b s rs cm nt)).events.get? j =
          some HEv.evNotify ∧
        (handler store email (mkSuccessEnv b s rs cm nt)).notifications =
          [{ email := email
             analysisResult := { important := b, summary := s
                                 reason_for_importance := rs, error := none } }]) := by
  refine ⟨?_, ?_, rfl, ?_⟩
  · intro hcm
    subst hcm
    unfold handler
    cases b <;> simp [hid, hdup, mkSuccessEnv, llmInteraction, validResponse]
  · intro hcm
    subst hcm
    unfold handler
    cases b <;> simp [hid, hdup, mkSuccessEnv, llmInteraction, validResponse]
  · intro hb
    subst hb
    refine ⟨2, 3, by omega, ?_, ?_, ?_⟩ <;>
      · unfold handler
        simp [hid, hdup, mkSuccessEnv, llmInteraction, validResponse]

/-- C9 witness. -/
theorem notifiedFlagMatchesVerdict_witness :
    (sampleEmail.messageId ≠ "" ∧ hasRecord [] sampleEmail.messageId = false) ∧
    (handler [] sampleEmail (mkSuccessEnv true "sum" "why" true true)).store =
      [{ originalEmailMessageId := sampleEmail.messageId
         senderEmailAddress := sampleEmail.fromAddr
         notifiedViaTelegram := true
         analysisResult := { important := true, summary := "sum"
                             reason_for_importance := "why", error := none } }] ∧
    (handler [] sampleEmail (mkSuccessEnv true "sum" "why" true true)).store =
      (handler [] sampleEmail (mkSuccessEnv true "sum" "why" true false)).store :=
  have h := notifiedFlagMatchesVerdict [] sampleEmail true "sum" "why" true true
    (by decide) (by decide)
  ⟨⟨by decide, by decide⟩, by simpa using h.1 rfl, h.2.2.1⟩

/-- C10: when `createMemory` throws, the handler continues: with a successful
`important = true` classification the notifier is still invoked although no
ProcessedRecord exists for the messageId afterwards. -/
theorem persistFailureStillNotifies (store : List ProcessedRecord) (email : EmailDetails)
    (s rs : String) (nt : Bool)
    (hid : email.messageId ≠ "") (hdup : hasRecord store email.messageId = false) :
    (handler store email (mkSuccessEnv true s rs false nt)).store = store ∧
    hasRecord (handler store email (mkSuccessEnv true s rs false nt)).store
      email.messageId = false ∧
    (handler store email (mkSuccessEnv true s rs false nt)).notifications =
      [{ email := email
         analysisResult := { important := true, summary := s
                             reason_for_importance := rs, error := none } }] ∧
    HEv.evNotify ∈ (handler store email (mkSuccessEnv true s rs false nt)).events ∧
    (handler store email (mkSuccessEnv true s rs false nt)).retVal = true := by
  have hst : (handler store email (mkSuccessEnv true s rs false nt)).store = store := by
    unfold handler
    simp [hid, hdup, mkSuccessEnv, llmInteraction, validResponse]
  refine ⟨hst, by rw [hst]; simpa using hdup, ?_, ?_, ?_⟩ <;>
    · unfold handler
      simp [hid, hdup, mkSuccessEnv, llmInteraction, validResponse]

/-- C10 witness. -/
theorem persistFailureStillNotifies_witness :
    (sampleEmail.messageId ≠ "" ∧ hasRecord [] sampleEmail.messageId = false) ∧
    (handler [] sampleEmail (mkSuccessEnv true "sum" "why" false false)).store = [] ∧
    (handler [] sampleEmail (mkSuccessEnv true "sum" "why" false false)).notifications =
      [{ email := sampleEmail
         analysisResult := { important := true, summary := "sum"
                             reason_for_importance := "why", error := none } }] :=
  have h := persistFailureStillNotifies [] sampleEmail "sum" "why" false
    (by decide) (by decide)
  ⟨⟨by decide, by decide⟩, h.1, h.2.2.1⟩

/-! ### The `exists` wake-up handler in `monitorEmails` (src/index.ts) -/

/-- A message of the currently open mailbox, as far as the unseen-search sees
it: its UID and its seen flag. -/
structure MailMessage where
  uid : Nat
  seen : Bool
  deriving DecidableEq, Repr

/-- The payload of an imapflow `exists` event: `{count, prevCount, path}`. -/
structure ExistsData where
  count : Nat
  prevCount : Option Nat
  deriving DecidableEq, Repr

/-- `imapClient.search({unseen: true}, {uid: true})`: the UIDs of every message
of the mailbox whose seen flag is clear. -/
def searchUnseen (mbox : List MailMessage) : List Nat :=
  (mbox.filter (fun m => !m.seen)).map (fun m => m.uid)

/-- The gate and fetch set of the `exists` handler: with
`previousCount = data.prevCount === null ? 0 : data.prevCount`, the handler
proceeds only `if (data.count > previousCount)`, and then fetches exactly the
result of the unseen search. -/
def forwardedUids (d : ExistsData) (mbox : List MailMessage) : List Nat :=
  let previousCount := d.prevCount.getD 0
  if previousCount < d.count then searchUnseen mbox else []

/-- Modelled from the spec: "only the newly-arrived unseen messages (by
server-assigned identifier) are forwarded" — the unseen messages whose UID was
not present at the previous wake-up. Used only to compare the spec's words with
`forwardedUids`. -/
def newlyArrivedUnseen (mbox : List MailMessage) (prevUids : List Nat) : List Nat :=
  (mbox.filter (fun m => !m.seen && !(prevUids.contains m.uid))).map (fun m => m.uid)

/-- Per-UID outcome of `fetchOne`/`download` and of the `ANALYZE_EMAIL` call:
either the fetch throws (a FetchError), or it succeeds and the analyze action
handler either returns or throws. -/
inductive FetchOutcome where
  | fetchError
  | ok (analyzeThrows : Bool)
  deriving DecidableEq, Repr

/-- Events of one `exists` handler run, in order. -/
inductive BatchEv where
  | acquireLock
  | releaseLock
  | searchEv
  | fetchEv (uid : Nat)
  | analyzeEv (uid : Nat)
  | logActionError (uid : Nat)
  | logBatchError
  deriving DecidableEq, Repr

/-- The `for (const uid of uidsToFetch)` loop. A `fetchError` is an exception
thrown by `fetchOne`/`download`: it escapes the loop (the surrounding try/catch
is OUTSIDE the loop), so the rest of the batch is abandoned (second component
`true`). An exception of the analyze action is caught by the inner per-message
try/catch and only logged. -/
def processUids : List Nat → (Nat → FetchOutcome) → List BatchEv × Bool
  | [], _ => ([], false)
  | uid :: rest, fetch =>
    match fetch uid with
    | FetchOutcome.fetchError => ([BatchEv.fetchEv uid], true)
    | FetchOutcome.ok th =>
      let tail := processUids rest fetch
      (BatchEv.fetchEv uid :: BatchEv.analyzeEv uid ::
        ((if th then [BatchEv.logActionError uid] else []) ++ tail.1), tail.2)

/-- Environment of one `exists` handler run: the mailbox contents, whether the
unseen search throws, and the per-UID fetch/analyze outcomes. -/
structure BatchEnv where
  mbox : List MailMessage
  searchThrows : Bool
  fetch : Nat → FetchOutcome

/-- The full `exists` handler: gate on the counts, `getMailboxLock`, a try
block running search and the fetch loop, a catch block that logs any escaped
error, and a finally block that releases the lock. -/
def existsHandlerTrace (d : ExistsData) (env : BatchEnv) : List BatchEv :=
  let previousCount := d.prevCount.getD 0
  if previousCount < d.count then
    let inner : List BatchEv × Bool :=
      if env.searchThrows then ([BatchEv.searchEv], true)
      else
        let r := processUids (searchUnseen env.mbox) env.fetch
        (BatchEv.searchEv :: r.1, r.2)
    BatchEv.acquireLock ::
      (inner.1 ++ (if inner.2 then [BatchEv.logBatchError] else []) ++ [BatchEv.releaseLock])
  else []

/-- The UIDs for which the `ANALYZE_EMAIL` action was reached. -/
def analyzedUids (evs : List BatchEv) : List Nat :=
  evs.filterMap (fun e => match e with
    | BatchEv.analyzeEv u => some u
    | _ => none)

def isFetchErr : FetchOutcome → Bool
  | FetchOutcome.fetchError => true
  | FetchOutcome.ok _ => false

/-- A mailbox with two unseen messages, UID 1 having been present (and already
unseen) before the wake-up, UID 2 newly arrived. -/
def staleMbox : List MailMessage :=
  [{ uid := 1, seen := false }, { uid := 2, seen := false }]

/-- C2 counterexample: with count 2 and prevCount 1 the handler searches
`{unseen: true}` and forwards the FULL set of unseen messages, [1, 2] —
including the previously-present unseen UID 1 — not only the newly-arrived
[2] that the claim requires. -/
theorem batchWakeupFiltering_cex :
    forwardedUids { count := 2, prevCount := some 1 } staleMbox = [1, 2] ∧
    newlyArrivedUnseen staleMbox [1] = [2] ∧
    forwardedUids { count := 2, prevCount := some 1 } staleMbox ≠
      newlyArrivedUnseen staleMbox [1] := by
  decide

/-- C2 (amended): the handler forwards messages only when the reported count
strictly exceeds the previous count (null treated as 0), and when it does it
fetches exactly the messages currently flagged unseen in the mailbox — all of
them, not only the newly-arrived ones. -/
theorem batchWakeupGating (d : ExistsData) (mbox : List MailMessage) :
    (d.count ≤ d.prevCount.getD 0 → forwardedUids d mbox = []) ∧
    (d.prevCount.getD 0 < d.count → forwardedUids d mbox = searchUnseen mbox) ∧
    (d.prevCount = none → 0 < d.count → forwardedUids d mbox = searchUnseen mbox) ∧
    (∀ u, u ∈ searchUnseen mbox ↔ ∃ m, m ∈ mbox ∧ m.seen = false ∧ m.uid = u) := by
  refine ⟨?_, ?_, ?_, ?_⟩
  · intro h
    simp [forwardedUids, Nat.not_lt.mpr h]
  · intro h
    simp [forwardedUids, h]
  · intro hn h
    simp [forwardedUids, hn, h]
  · intro u
    simp [searchUnseen, List.mem_filter]
    constructor
    · rintro ⟨m, ⟨hm, hs⟩, hu⟩
      exact ⟨m, hm, by simpa using hs, hu⟩
    · rintro ⟨m, hm, hs, hu⟩
      exact ⟨m, ⟨hm, by simp [hs]⟩, hu⟩

/-- C2 witness. -/
theorem batchWakeupGating_witness :
    ((2 : Nat) ≤ (ExistsData.mk 2 (some 2)).prevCount.getD 0 ∧
      forwardedUids (ExistsData.mk 2 (some 2)) staleMbox = []) ∧
    ((ExistsData.mk 3 (some 2)).prevCount.getD 0 < 3 ∧
      forwardedUids (ExistsData.mk 3 (some 2)) staleMbox = searchUnseen staleMbox) :=
  ⟨⟨by decide, (batchWakeupGating (ExistsData.mk 2 (some 2)) staleMbox).1 (by decide)⟩,
   ⟨by decide, (batchWakeupGating (ExistsData.mk 3 (some 2)) staleMbox).2.1 (by decide)⟩⟩

/-- A fetch environment where UID 1 fails with a FetchError and every other
UID fetches fine. -/
def cexFetch : Nat → FetchOutcome :=
  fun u => if u = 1 then FetchOutcome.fetchError else FetchOutcome.ok false

/-- C3 counterexample: in the batch [1, 2], the FetchError on UID 1 escapes the
loop to the try/catch OUTSIDE it, so UID 2 — whose fetch would succeed — is
never analyzed: the failure aborts the remainder of the batch instead of
skipping only the failing message. -/
theorem batchContinuation_cex :
    isFetchErr (cexFetch 2) = false ∧
    analyzedUids (processUids [1, 2] cexFetch).1 = [] := by
  decide

/-- C3 (amended): the analyzed messages of a batch are exactly the longest
fetch-error-free prefix of the batch: an `ANALYZE_EMAIL` handler throw is
caught per-message and never affects the rest, but a fetch/download failure
aborts all remaining messages of the batch (the error is caught outside the
loop, where the batch error is logged). -/
theorem batchContinuation (uids : List Nat) (fetch : Nat → FetchOutcome) :
    analyzedUids (processUids uids fetch).1 =
      uids.takeWhile (fun u => !isFetchErr (fetch u)) ∧
    ((∀ u ∈ uids, isFetchErr (fetch u) = false) →
      analyzedUids (processUids uids fetch).1 = uids) := by
  have h1 : analyzedUids (processUids uids fetch).1 =
      uids.takeWhile (fun u => !isFetchErr (fetch u)) := by
    induction uids with
    | nil => simp [processUids, analyzedUids]
    | cons u rest ih =>
      simp only [isFetchErr, analyzedUids] at ih ⊢
      cases hf : fetch u with
      | fetchError => simp [processUids, hf, analyzedUids, List.takeWhile]
      | ok th => cases th <;> simp [processUids, hf, analyzedUids, List.takeWhile, ih]
  refine ⟨h1, fun hall => ?_⟩
  rw [h1]
  have : ∀ (l : List Nat), (∀ x ∈ l, isFetchErr (fetch x) = false) →
      l.takeWhile (fun u => !isFetchErr (fetch u)) = l := by
    intro l
    induction l with
    | nil => intro _; rfl
    | cons a t ih =>
      intro hl
      simp [List.takeWhile, hl a (List.mem_cons_self _ _),
        ih (fun x hx => hl x (List.mem_cons_of_mem _ hx))]
  exact this uids hall

/-- C3 witness. -/
theorem batchContinuation_witness :
    (∀ u ∈ [(2 : Nat), 3], isFetchErr (cexFetch u) = false) ∧
    analyzedUids (processUids [2, 3] cexFetch).1 = [2, 3] :=
  ⟨by decide, (batchContinuation [2, 3] cexFetch).2 (by decide)⟩

lemma processUids_count_release (uids : List Nat) (fetch : Nat → FetchOutcome) :
    (processUids uids fetch).1.count BatchEv.releaseLock = 0 := by
  induction uids with
  | nil => simp [processUids]
  | cons u rest ih =>
    cases hf : fetch u with
    | fetchError => simp [processUids, hf]
    | ok th => cases th <;> simp [processUids, hf, ih]

lemma processUids_count_acquire (uids : List Nat) (fetch : Nat → FetchOutcome) :
    (processUids uids fetch).1.count BatchEv.acquireLock = 0 := by
  induction uids with
  | nil => simp [processUids]
  | cons u rest ih =>
    cases hf : fetch u with
    | fetchError => simp [processUids, hf]
    | ok th => cases th <;> simp [processUids, hf, ih]

lemma getLast?_append_singleton {α : Type} (l : List α) (x : α) :
    (l ++ [x]).getLast? = some x := by
  rw [List.getLast?_concat]

/-- C8: on every run of the `exists` handler the mailbox lock is released as
many times as it is acquired, and whenever it is acquired — whatever the
search, fetch and analyze outcomes, including thrown errors — the run ends
with the release (the `finally` block). -/
theorem lockReleasedEveryPath (d : ExistsData) (env : BatchEnv) :
    (existsHandlerTrace d env).count BatchEv.releaseLock =
      (existsHandlerTrace d env).count BatchEv.acquireLock ∧
    (BatchEv.acquireLock ∈ existsHandlerTrace d env →
      (existsHandlerTrace d env).getLast? = some BatchEv.releaseLock) := by
  by_cases hgate : d.prevCount.getD 0 < d.count
  · constructor
    · cases hs : env.searchThrows
      · cases hr2 : (processUids (searchUnseen env.mbox) env.fetch).2 <;>
          simp [existsHandlerTrace, hgate, hs, hr2, List.count_append, List.count_cons,
            processUids_count_release, processUids_count_acquire]
      · simp [existsHandlerTrace, hgate, hs, List.count_append, List.count_cons]
    · intro _
      cases hs : env.searchThrows <;>
        · simp only [existsHandlerTrace, hgate, if_true, hs]
          rw [← List.cons_append, getLast?_append_singleton]
  · simp [existsHandlerTrace, hgate]

/-- A concrete batch environment: one message analyzed with a handler throw,
one analyzed cleanly. -/
def sampleBatchEnv : BatchEnv :=
  { mbox := [{ uid := 1, seen := false }, { uid := 2, seen := true },
             { uid := 3, seen := false }]
    searchThrows := false
    fetch := fun u => if u = 1 then FetchOutcome.ok true else FetchOutcome.ok false }

/-- C8 witness. -/
theorem lockReleasedEveryPath_witness :
    BatchEv.acquireLock ∈ existsHandlerTrace (ExistsData.mk 3 (some 1)) sampleBatchEnv ∧
    (existsHandlerTrace (ExistsData.mk 3 (some 1)) sampleBatchEnv).getLast? =
      some BatchEv.releaseLock :=
  ⟨by decide,
   (lockReleasedEveryPath (ExistsData.mk 3 (some 1)) sampleBatchEnv).2 (by decide)⟩

/-! ### Body resolution in `monitorEmails` (src/index.ts) -/

/-- One node of `msgData.bodyStructure.childNodes`: its MIME type, its part
designator (the argument `download` needs), and the decoded string the
download would yield (`none` when the download yields no content). -/
structure PartNode where
  type : Option String
  part : Option String
  content : Option String
  deriving DecidableEq, Repr

/-- JavaScript truthiness of an optional string (`undefined` and `""` are
falsy). -/
def jsTruthy : Option String → Bool
  | some s => !(s == "")
  | none => false

/-- `part.type === "text/plain"`. -/
def isPlainPart (p : PartNode) : Bool := p.type == some "text/plain"

/-- `part.type === "text/html"`. -/
def isHtmlPart (p : PartNode) : Bool := p.type == some "text/html"

/-- `a` starts with the characters `pre` (structural model of JavaScript's
`String.prototype.startsWith`, kept kernel-evaluable). -/
def startsWithL : List Char → List Char → Bool
  | _, [] => true
  | [], _ :: _ => false
  | a :: as, b :: bs => a == b && startsWithL as bs

/-- `part.type?.startsWith("text/")`. -/
def isTextPart (p : PartNode) : Bool := startsWithL (p.type.getD "").data "text/".data

/-- `downloadedPart?.content` decoded, or the untouched `bodyText = ""`. -/
def partContent (o : Option PartNode) : String :=
  match o.bind (fun p => p.content) with
  | some c => c
  | none => ""

/-- Shallow embedding of the body-resolution chain of `monitorEmails`:
text/plain verbatim, else text/html through the html-to-text converter
`conv`, else the first `text/*` part verbatim (with a logged warning), else
the empty string. `conv` stands for the imported `htmlToText` function. -/
def resolveBody (conv : String → String) (childNodes : Option (List PartNode)) : String :=
  let nodes := childNodes.getD []
  let textPartInfo := nodes.find? isPlainPart
  if jsTruthy (textPartInfo.bind (fun p => p.part)) then
    partContent textPartInfo
  else
    let htmlPartInfo := nodes.find? isHtmlPart
    if jsTruthy (htmlPartInfo.bind (fun p => p.part)) then
      match htmlPartInfo.bind (fun p => p.content) with
      | some c => conv c
      | none => ""
    else
      let firstTextPart := nodes.find? isTextPart
      if jsTruthy (firstTextPart.bind (fun p => p.part)) then
        partContent firstTextPart
      else ""

/-- A token of HTML content, as far as the configured conversion distinguishes
them: text, an image, a horizontal rule. -/
inductive HtmlToken where
  | text (s : String)
  | img (src : String)
  | hr
  deriving DecidableEq, Repr

/-- Modelled from the spec: the external html-to-text conversion as configured
in `monitorEmails` (selectors `img` and `hr` set to `format: "skip"`): text is
rendered, images and horizontal separators are dropped entirely, not
represented as text. The `html-to-text` npm package itself is not part of
this repository. -/
def htmlTokensToText : List HtmlToken → String
  | [] => ""
  | HtmlToken.text s :: rest => s ++ htmlTokensToText rest
  | HtmlToken.img _ :: rest => htmlTokensToText rest
  | HtmlToken.hr :: rest => htmlTokensToText rest

def isTextToken : HtmlToken → Bool
  | HtmlToken.text _ => true
  | _ => false

/-- A part list is well-formed when every node has a non-empty part designator
and downloadable content. -/
def wellFormedParts (nodes : List PartNode) : Bool :=
  nodes.all (fun p => jsTruthy p.part && p.content.isSome)

lemma jsTruthy_none : jsTruthy none = false := rfl

lemma wellFormed_found {nodes : List PartNode} {pred : PartNode → Bool} {p : PartNode}
    (hwf : wellFormedParts nodes = true) (hfind : nodes.find? pred = some p) :
    jsTruthy p.part = true ∧ ∃ c, p.content = some c := by
  have hmem : p ∈ nodes := List.mem_of_find?_eq_some hfind
  have := (List.all_eq_true.mp hwf) p hmem
  have h1 : jsTruthy p.part = true := by
    cases h : jsTruthy p.part
    · simp [h] at this
    · rfl
  have h2 : p.content.isSome = true := by
    cases h : p.content.isSome
    · simp [h] at this
    · rfl
  exact ⟨h1, Option.isSome_iff_exists.mp h2⟩

/-- C4: over a well-formed part list the body is resolved in strict priority
order: the first text/plain part's decoded content verbatim (even when a
text/html part exists); else the converter applied to the first text/html
part's content; else the first `text/*` part's content verbatim; else the
empty string. And the modelled converter drops images and horizontal rules
entirely: its output equals its output on the text tokens alone. -/
theorem bodyResolutionPriority (conv : String → String) (nodes : List PartNode)
    (hwf : wellFormedParts nodes = true) :
    (∀ tp, nodes.find? isPlainPart = some tp →
      ∃ c, tp.content = some c ∧ resolveBody conv (some nodes) = c) ∧
    (nodes.find? isPlainPart = none →
      ∀ hp, nodes.find? isHtmlPart = some hp →
        ∃ c, hp.content = some c ∧ resolveBody conv (some nodes) = conv c) ∧
    (nodes.find? isPlainPart = none → nodes.find? isHtmlPart = none →
      ∀ t, nodes.find? isTextPart = some t →
        ∃ c, t.content = some c ∧ resolveBody conv (some nodes) = c) ∧
    (nodes.find? isPlainPart = none → nodes.find? isHtmlPart = none →
      nodes.find? isTextPart = none → resolveBody conv (some nodes) = "") ∧
    (∀ ts : List HtmlToken, htmlTokensToText ts = htmlTokensToText (ts.filter isTextToken)) := by
  refine ⟨?_, ?_, ?_, ?_, ?_⟩
  · intro tp hfind
    obtain ⟨htr, c, hc⟩ := wellFormed_found hwf hfind
    exact ⟨c, hc, by simp [resolveBody, hfind, htr, partContent, hc]⟩
  · intro hnone hp hfind
    obtain ⟨htr, c, hc⟩ := wellFormed_found hwf hfind
    exact ⟨c, hc, by simp [resolveBody, hnone, hfind, htr, jsTruthy_none, hc]⟩
  · intro hnone hnone2 t hfind
    obtain ⟨htr, c, hc⟩ := wellFormed_found hwf hfind
    exact ⟨c, hc, by
      simp [resolveBody, hnone, hnone2, hfind, htr, jsTruthy_none, partContent, hc]⟩
  · intro hnone hnone2 hnone3
    simp [resolveBody, hnone, hnone2, hnone3, jsTruthy_none]
  · intro ts
    induction ts with
    | nil => rfl
    | cons t rest ih => cases t <;> simp [htmlTokensToText, isTextToken, List.filter, ih]

/-- A part list containing both a text/plain and a text/html part. -/
def bothParts : List PartNode :=
  [{ type := some "text/html", part := some "1", content := some "<p>Hi</p>" },
   { type := some "text/plain", part := some "2", content := some "Hi plain" }]

/-- C4 witness: with both part types present, the plain part's content is used
verbatim, for every converter (applied here to the converter that appends
"[html]", to show the html branch is not taken). -/
theorem bodyResolutionPriority_witness :
    wellFormedParts bothParts = true ∧
    (bothParts.find? isPlainPart =
      some { type := some "text/plain", part := some "2", content := some "Hi plain" } ∧
    resolveBody (fun s => s ++ "[html]") (some bothParts) = "Hi plain") :=
  have h := (bodyResolutionPriority (fun s => s ++ "[html]") bothParts (by decide)).1
    { type := some "text/plain", part := some "2", content := some "Hi plain" } (by decide)
  ⟨by decide, by decide, by
    obtain ⟨c, hc, hb⟩ := h
    have : c = "Hi plain" := by
      have := hc
      simp at this
      exact this.symm
    rw [hb, this]⟩

/-! ### messageId resolution in `monitorEmails` (src/index.ts) -/

/-- Whitespace, as JavaScript's `\s` and `String.prototype.trim` see it
(modelled by Lean's `Char.isWhitespace`). -/
def isWs (c : Char) : Bool := c.isWhitespace

/-- Drop leading and trailing whitespace from a character list. -/
def trimL (l : List Char) : List Char :=
  ((l.dropWhile isWs).reverse.dropWhile isWs).reverse

/-- JavaScript's `String.prototype.trim`. -/
def jsTrim (s : String) : String := String.mk (trimL s.data)

/-- The envelope fields the resolution reads: `envelope.messageId` and
`envelope.date?.toISOString()`. -/
structure Envelope where
  messageId : Option String
  dateISO : Option String
  deriving DecidableEq, Repr

/-- Input of the `finalMessageId` resolution for one fetched message:
the envelope (possibly absent), the raw header block (`none` when
`msgData.headers` is absent or not a Buffer), the UID, and `Date.now()`. -/
structure MsgIdInput where
  envelope : Option Envelope
  headersRaw : Option String
  uid : Nat
  nowMs : Nat
  deriving DecidableEq, Repr

/-- Line starts of a JavaScript multiline regex: both `\n` and `\r` end a
line. Structural split of a character list at line terminators. -/
def splitLinesL : List Char → List Char → List (List Char)
  | [], acc => [acc.reverse]
  | c :: rest, acc =>
    if c = '\n' ∨ c = '\r' then acc.reverse :: splitLinesL rest []
    else splitLinesL rest (c :: acc)

/-- The tail match of `/^Message-ID:\s*([^\r\n]+)/` on the rest of a line:
greedy `\s*` then a non-empty capture; when the tail is all whitespace the
star backtracks and the capture is the last (whitespace) character, which the
caller's trim check then rejects. -/
def captureMessageIdTail (t : List Char) : Option (List Char) :=
  if t.isEmpty then none
  else
    let d := t.dropWhile isWs
    if d.isEmpty then some (t.drop (t.length - 1))
    else some d

/-- `rawHeadersString.match(/^Message-ID:\s*([^\r\n]+)/im)`: the first line
whose start matches `Message-ID:` case-insensitively, with its capture. -/
def msgIdFromRawHeaders (raw : String) : Option String :=
  ((splitLinesL raw.data []).findSome? (fun line =>
    if startsWithL (line.map Char.toLower) "message-id:".data then
      captureMessageIdTail (line.drop 11)
    else none)).map String.mk

/-- The synthesized fallback
`` `pingpal-no-id-${uid}-${msgData.envelope?.date?.toISOString() || Date.now()}` ``. -/
def fallbackId (inp : MsgIdInput) : String :=
  "pingpal-no-id-" ++ toString inp.uid ++ "-" ++
    (match inp.envelope.bind (fun e => e.dateISO) with
     | some d => if d = "" then toString inp.nowMs else d
     | none => toString inp.nowMs)

/-- The raw-headers branch: use the trimmed capture when non-blank, else the
fallback. (The source trims the capture when storing it and once more in the
guard; trimming is idempotent, so one `jsTrim` is applied here.) -/
def rawHeaderPath (inp : MsgIdInput) : String :=
  match inp.headersRaw.bind msgIdFromRawHeaders with
  | some h => if jsTrim h = "" then fallbackId inp else jsTrim h
  | none => fallbackId inp

/-- The full `finalMessageId` resolution: trimmed envelope id when non-blank,
else the raw-headers capture when non-blank, else the synthesized fallback. -/
def resolveMessageId (inp : MsgIdInput) : String :=
  match inp.envelope.bind (fun e => e.messageId) with
  | some mid => if jsTrim mid = "" then rawHeaderPath inp else jsTrim mid
  | none => rawHeaderPath inp

/-- `s` contains at least one non-whitespace character (i.e. it is neither
empty nor whitespace-only). -/
def notBlank (s : String) : Prop := ∃ c ∈ s.data, isWs c = false

lemma dropWhile_head_not {α : Type} {p : α → Bool} :
    ∀ (l : List α) (x : α), (l.dropWhile p).head? = some x → p x = false := by
  intro l
  induction l with
  | nil => intro x hx; simp at hx
  | cons a t ih =>
    intro x hx
    by_cases hp : p a = true
    · rw [List.dropWhile_cons_of_pos hp] at hx
      exact ih x hx
    · rw [List.dropWhile_cons_of_neg hp] at hx
      simp at hx
      subst hx
      simpa using hp

lemma trimL_not_allWs (l : List Char) (h : trimL l ≠ []) :
    ∃ c ∈ trimL l, isWs c = false := by
  unfold trimL at h ⊢
  have hB : (l.dropWhile isWs).reverse.dropWhile isWs ≠ [] := by
    intro hb
    exact h (by rw [hb]; rfl)
  obtain ⟨x, t, hxt⟩ := List.exists_cons_of_ne_nil hB
  have hx : isWs x = false :=
    dropWhile_head_not _ x (by rw [hxt]; rfl)
  exact ⟨x, by rw [hxt]; simp, hx⟩

lemma jsTrim_ne_empty_data {s : String} (h : jsTrim s ≠ "") : trimL s.data ≠ [] := by
  intro hh
  apply h
  show String.mk (trimL s.data) = ""
  rw [hh]

lemma notBlank_jsTrim (s : String) (h : jsTrim s ≠ "") : notBlank (jsTrim s) := by
  have := trimL_not_allWs s.data (jsTrim_ne_empty_data h)
  simpa [notBlank, jsTrim] using this

lemma notBlank_fallback (inp : MsgIdInput) : notBlank (fallbackId inp) := by
  refine ⟨'p', ?_, by decide⟩
  show 'p' ∈ (fallbackId inp).data
  unfold fallbackId
  rw [String.data_append, String.data_append, String.data_append]
  exact List.mem_append_left _ (List.mem_append_left _ (List.mem_append_left _ (by decide)))

lemma notBlank_ne_empty {s : String} (h : notBlank s) : s ≠ "" := by
  obtain ⟨c, hc, _⟩ := h
  intro he
  rw [he] at hc
  simp at hc

lemma resolveMessageId_envSome {inp : MsgIdInput} {mid : String}
    (hmid : inp.envelope.bind (fun e => e.messageId) = some mid) :
    resolveMessageId inp = if jsTrim mid = "" then rawHeaderPath inp else jsTrim mid := by
  unfold resolveMessageId
  rw [hmid]

lemma resolveMessageId_envNone {inp : MsgIdInput}
    (hmid : inp.envelope.bind (fun e => e.messageId) = none) :
    resolveMessageId inp = rawHeaderPath inp := by
  unfold resolveMessageId
  rw [hmid]

lemma rawHeaderPath_some {inp : MsgIdInput} {h : String}
    (hh : inp.headersRaw.bind msgIdFromRawHeaders = some h) :
    rawHeaderPath inp = if jsTrim h = "" then fallbackId inp else jsTrim h := by
  unfold rawHeaderPath
  rw [hh]

lemma rawHeaderPath_none {inp : MsgIdInput}
    (hh : inp.headersRaw.bind msgIdFromRawHeaders = none) :
    rawHeaderPath inp = fallbackId inp := by
  unfold rawHeaderPath
  rw [hh]

lemma rawHeaderPath_ok (inp : MsgIdInput) :
    rawHeaderPath inp ≠ "" ∧ notBlank (rawHeaderPath inp) := by
  cases hc : inp.headersRaw.bind msgIdFromRawHeaders with
  | none =>
    rw [rawHeaderPath_none hc]
    exact ⟨notBlank_ne_empty (notBlank_fallback inp), notBlank_fallback inp⟩
  | some h =>
    rw [rawHeaderPath_some hc]
    by_cases ht : jsTrim h = ""
    · rw [if_pos ht]
      exact ⟨notBlank_ne_empty (notBlank_fallback inp), notBlank_fallback inp⟩
    · rw [if_neg ht]
      exact ⟨ht, notBlank_jsTrim h ht⟩

/-- C6: the resolved messageId prefers the trimmed envelope identifier when
non-blank, then the case-insensitive Message-ID header-line capture when
non-blank, then the synthesized `pingpal-no-id-<uid>-<timestamp>` fallback;
and in every case the result is non-empty and not whitespace-only. -/
theorem messageIdResolution (inp : MsgIdInput) :
    (∀ mid, inp.envelope.bind (fun e => e.messageId) = some mid → jsTrim mid ≠ "" →
      resolveMessageId inp = jsTrim mid) ∧
    ((∀ mid, inp.envelope.bind (fun e => e.messageId) = some mid → jsTrim mid = "") →
      ∀ h, inp.headersRaw.bind msgIdFromRawHeaders = some h → jsTrim h ≠ "" →
        resolveMessageId inp = jsTrim h) ∧
    ((∀ mid, inp.envelope.bind (fun e => e.messageId) = some mid → jsTrim mid = "") →
      (∀ h, inp.headersRaw.bind msgIdFromRawHeaders = some h → jsTrim h = "") →
      resolveMessageId inp = fallbackId inp ∧
      ∃ ts, fallbackId inp = "pingpal-no-id-" ++ toString inp.uid ++ "-" ++ ts) ∧
    (resolveMessageId inp ≠ "" ∧ notBlank (resolveMessageId inp)) := by
  have hraw : (∀ h, inp.headersRaw.bind msgIdFromRawHeaders = some h →
      jsTrim h = "") → rawHeaderPath inp = fallbackId inp := by
    intro hblank
    cases hc : inp.headersRaw.bind msgIdFromRawHeaders with
    | none => exact rawHeaderPath_none hc
    | some h => rw [rawHeaderPath_some hc, if_pos (hblank h hc)]
  refine ⟨?_, ?_, ?_, ?_⟩
  · intro mid hmid ht
    rw [resolveMessageId_envSome hmid, if_neg ht]
  · intro hblank h hh ht
    have hrw : rawHeaderPath inp = jsTrim h := by
      rw [rawHeaderPath_some hh, if_neg ht]
    cases hmid : inp.envelope.bind (fun e => e.messageId) with
    | none => rw [resolveMessageId_envNone hmid, hrw]
    | some mid =>
      rw [resolveMessageId_envSome hmid, if_pos (hblank mid hmid), hrw]
  · intro hblank1 hblank2
    refine ⟨?_, ⟨_, rfl⟩⟩
    cases hmid : inp.envelope.bind (fun e => e.messageId) with
    | none => rw [resolveMessageId_envNone hmid, hraw hblank2]
    | some mid =>
      rw [resolveMessageId_envSome hmid, if_pos (hblank1 mid hmid), hraw hblank2]
  · cases hmid : inp.envelope.bind (fun e => e.messageId) with
    | none =>
      rw [resolveMessageId_envNone hmid]
      exact rawHeaderPath_ok inp
    | some mid =>
      rw [resolveMessageId_envSome hmid]
      by_cases ht : jsTrim mid = ""
      · rw [if_pos ht]
        exact rawHeaderPath_ok inp
      · rw [if_neg ht]
        exact ⟨ht, notBlank_jsTrim mid ht⟩

/-- A message whose envelope carries a padded Message-ID. -/
def envInput : MsgIdInput :=
  { envelope := some { messageId := some "  <id@x>  ", dateISO := none }
    headersRaw := none
    uid := 5
    nowMs := 1700000000000 }

/-- A message whose envelope id is blank but whose raw header block carries a
Message-ID line. -/
def rawInput : MsgIdInput :=
  { envelope := some { messageId := some "   ", dateISO := none }
    headersRaw := some "Subject: hi\r\nMessage-ID: <h@y>\r\nDate: z"
    uid := 9
    nowMs := 1700000000002 }

/-- A message with no envelope id and no parsable headers: fallback. -/
def bareInput : MsgIdInput :=
  { envelope := none, headersRaw := none, uid := 6, nowMs := 1700000000001 }

/-- C6 witness: the envelope branch at a concrete padded id, the raw-header
branch at a blank envelope id, and the fallback branch at a concrete input
with neither. -/
theorem messageIdResolution_witness :
    (envInput.envelope.bind (fun e => e.messageId) = some "  <id@x>  " ∧
      jsTrim "  <id@x>  " ≠ "" ∧
      resolveMessageId envInput = jsTrim "  <id@x>  ") ∧
    (rawInput.headersRaw.bind msgIdFromRawHeaders = some "<h@y>" ∧
      resolveMessageId rawInput = jsTrim "<h@y>") ∧
    (resolveMessageId bareInput = fallbackId bareInput ∧
      resolveMessageId bareInput ≠ "" ∧ notBlank (resolveMessageId bareInput)) :=
  ⟨⟨by decide, by decide,
    (messageIdResolution envInput).1 "  <id@x>  " (by decide) (by decide)⟩,
   ⟨by decide,
    (messageIdResolution rawInput).2.1 (fun mid hmid => by cases hmid; decide)
      "<h@y>" (by decide) (by decide)⟩,
   ⟨((messageIdResolution bareInput).2.2.1 (fun mid hmid => nomatch hmid)
      (fun h hh => nomatch hh)).1,
    (messageIdResolution bareInput).2.2.2.1,
    (messageIdResolution bareInput).2.2.2.2⟩⟩

end PingPal
